import Mathlib

set_option maxRecDepth 8000

/-!
Shallow embedding of the girlgroup_2025 scraping and cleaning pipeline
(src/scraping/bugs_scraping.py and src/scraping/cleaning.py), together with
theorems settling the behavioural claims about it.

Tables are lists of rows; pandas Series are lists tagged with a dtype where the
dtype matters; fallible Python code is embedded as Option/Except values.
-/

/-! ## String helpers (Python string primitives used by the source) -/

/-- Python whitespace set used by str.strip() with no argument. -/
def pyWsChar (c : Char) : Bool :=
  c == ' ' || c == '\t' || c == '\n' || c == '\r' || c == '\x0b' || c == '\x0c'

/-- Python str.strip(): drop leading and trailing whitespace. -/
def pyStrip (s : String) : String :=
  ⟨((s.data.dropWhile pyWsChar).reverse.dropWhile pyWsChar).reverse⟩

/-- Python str.strip(chr 10): drop leading and trailing newline characters. -/
def stripNl (s : String) : String :=
  ⟨((s.data.dropWhile (· == '\n')).reverse.dropWhile (· == '\n')).reverse⟩

/-- Python str.replace of the newline character by the empty string. -/
def removeNl (s : String) : String :=
  ⟨s.data.filter (fun c => c != '\n')⟩

/-- Python str.replace of a carriage-return/line-feed pair by one space. -/
def replaceCrLf : List Char → List Char
  | [] => []
  | '\r' :: '\n' :: rest => ' ' :: replaceCrLf rest
  | c :: rest => c :: replaceCrLf rest

/-- Substring test on character lists (Python operator in / str.contains on a
plain, regex-metacharacter-free pattern). -/
def containsSub (needle : List Char) : List Char → Bool
  | [] => needle.isEmpty
  | c :: rest => needle.isPrefixOf (c :: rest) || containsSub needle rest

/-- Case-sensitive substring test on strings. -/
def strContains (h pat : String) : Bool := containsSub pat.data h.data

/-- ASCII lowercase folding, matching re.IGNORECASE on the ASCII-only patterns
the source uses (Korean characters have no case). -/
def lowerL (l : List Char) : List Char := l.map Char.toLower

/-! ## Numeric coercion (pd.to_numeric on single cells)

The source applies pd.to_numeric with the coercing error mode to track-id cells,
which in this catalog are integer-literal strings or scrape garbage; the model
parses an optional sign followed by digits (after stripping surrounding
whitespace) and coerces everything else to null, exactly the outcome the source
observes on its value domain. -/

def digitVal (c : Char) : Option Nat :=
  if c.isDigit then some (c.toNat - '0'.toNat) else none

def parseDigitsAux : List Char → Nat → Option Nat
  | [], acc => some acc
  | c :: rest, acc =>
    match digitVal c with
    | none => none
    | some d => parseDigitsAux rest (acc * 10 + d)

def parseDigits : List Char → Option Nat
  | [] => none
  | l => parseDigitsAux l 0

/-- One cell of pd.to_numeric in coercing mode, on integer-literal strings. -/
def toNumericCell (s : String) : Option Int :=
  match (pyStrip s).data with
  | '-' :: rest => (parseDigits rest).map (fun n => -(n : Int))
  | '+' :: rest => (parseDigits rest).map (fun n => (n : Int))
  | l => (parseDigits l).map (fun n => (n : Int))

/-! ## Track-id extraction from the onclick attribute (get_album_tracks) -/

/-- The single-quote character. -/
def quoteChar : Char := Char.ofNat 39

/-- The single-quote character as a string. -/
def qs : String := String.singleton quoteChar

/-- The literal argument the source passes to lstrip before splitting on a
quote: bugs.wiselog.area(906-area-code);bugs.music.listen( up to the opening
quote of the track id. -/
def onclickPre : String :=
  "bugs.wiselog.area(" ++ qs ++ "list_tr_09_ab" ++ qs ++ ");bugs.music.listen(" ++ qs

/-- Python str.lstrip(chars): removes the maximal leading run of characters
belonging to the given character set (not a prefix removal). -/
def lstripChars (cs : List Char) (l : List Char) : List Char :=
  l.dropWhile (fun c => cs.contains c)

/-- Python split on the quote character, first component. -/
def splitQuoteHead (l : List Char) : List Char :=
  l.takeWhile (fun c => c != quoteChar)

/-- Track-id derivation of get_album_tracks: lstrip with the fixed literal,
then the text before the first quote. -/
def extractTrackId (onclick : String) : String :=
  ⟨splitQuoteHead (lstripChars onclickPre.data onclick.data)⟩

/-- Modelled from the spec words, for comparison with extractTrackId: remove
the fixed literal as a prefix of the attribute value, then take the text before
the first quote. -/
def extractTrackIdSpecced (onclick : String) : String :=
  let l := onclick.data
  let l1 := if onclickPre.data.isPrefixOf l then l.drop onclickPre.data.length else l
  ⟨splitQuoteHead l1⟩

/-- A well-formed onclick attribute value around the track id 906225. -/
def ocSample : String := onclickPre ++ "906225" ++ qs ++ ");"

/-! ### List scanning lemmas for the extractor -/

theorem dropWhile_append_all {p : Char → Bool} :
    ∀ {xs ys : List Char}, (∀ x ∈ xs, p x = true) →
      List.dropWhile p (xs ++ ys) = List.dropWhile p ys := by
  intro xs
  induction xs with
  | nil => intro ys _; rfl
  | cons a l ih =>
    intro ys h
    have ha : p a = true := h a (List.mem_cons_self a l)
    simp only [List.cons_append, List.dropWhile, ha]
    exact ih fun x hx => h x (List.mem_cons_of_mem a hx)

theorem takeWhile_append_until {p : Char → Bool} :
    ∀ {xs : List Char} {y : Char} {ys : List Char},
      (∀ x ∈ xs, p x = true) → p y = false →
      List.takeWhile p (xs ++ y :: ys) = xs := by
  intro xs
  induction xs with
  | nil =>
    intro y ys _ hy
    simp [List.takeWhile, hy]
  | cons a l ih =>
    intro y ys h hy
    have ha : p a = true := h a (List.mem_cons_self a l)
    simp only [List.cons_append, List.takeWhile, ha]
    exact congrArg (List.cons a) (ih (fun x hx => h x (List.mem_cons_of_mem a hx)) hy)

/-- C4 counterexample: on a well-formed player-trigger attribute around the
track id 906225, lstrip eats the leading 9 and 0 (they occur in the literal's
character set), so the code yields 6225 while prefix removal would yield
906225; the claim's fixed-prefix description does not match the code. -/
theorem extractTrackId_differs_from_prefix_removal :
    extractTrackId ocSample = "6225" ∧
    extractTrackIdSpecced ocSample = "906225" ∧
    extractTrackId ocSample ≠ extractTrackIdSpecced ocSample := by
  refine ⟨by decide, by decide, by decide⟩

/-- C4 amended: get_album_tracks derives the track identifier by stripping the
maximal leading run of characters drawn from the character set of the fixed
literal (Python lstrip semantics), then taking the characters up to the first
single-quote delimiter; on an attribute of the shape literal-id-quote-rest this
coincides with prefix removal exactly when the identifier starts with a
character outside that set, and on any attribute it yields some string without
raising. -/
theorem extractTrackId_lstrip_shape (idc rest : List Char) (c : Char)
    (h1 : idc.head? = some c)
    (h2 : onclickPre.data.contains c = false)
    (h3 : ∀ d ∈ idc, d ≠ quoteChar) :
    extractTrackId ⟨onclickPre.data ++ idc ++ quoteChar :: rest⟩ = ⟨idc⟩ := by
  obtain ⟨tl, rfl⟩ : ∃ tl, idc = c :: tl := by
    cases idc with
    | nil => simp at h1
    | cons x xs =>
      have hx : x = c := by simpa [List.head?] using h1
      exact ⟨xs, by rw [hx]⟩
  have hall : ∀ x ∈ onclickPre.data,
      ((fun d => onclickPre.data.contains d) x) = true := by
    intro x hx
    exact List.elem_eq_true_of_mem hx
  have hdrop : lstripChars onclickPre.data
      (onclickPre.data ++ (c :: tl) ++ quoteChar :: rest)
      = (c :: tl) ++ quoteChar :: rest := by
    unfold lstripChars
    rw [List.append_assoc, dropWhile_append_all hall, List.cons_append,
      List.dropWhile_cons]
    simp only [h2]
    simp
  have htake : splitQuoteHead ((c :: tl) ++ quoteChar :: rest) = c :: tl := by
    unfold splitQuoteHead
    exact takeWhile_append_until (fun x hx => by simpa using h3 x hx) (by simp)
  show String.mk (splitQuoteHead (lstripChars onclickPre.data
      (onclickPre.data ++ (c :: tl) ++ quoteChar :: rest))) = String.mk (c :: tl)
  rw [hdrop, htake]

/-- C4 witness: the amended extraction theorem applied to the concrete track id
6225107, whose first character lies outside the stripped character set. -/
theorem extractTrackId_lstrip_shape_witness :
    extractTrackId ⟨onclickPre.data ++ "6225107".data ++ quoteChar :: ");".data⟩
      = ⟨"6225107".data⟩ :=
  extractTrackId_lstrip_shape "6225107".data ");".data '6' rfl (by decide) (by decide)

/-! ## clean_track_ids (cleaning.py)

A pandas track table carries a column dtype: when it comes in with a string
object column the string accessor works, and the function converts the cleaned
ids to an int64 column; the string accessor raises AttributeError on a numeric
column, which the function does not catch. The coercing pd.to_numeric call in
the try block cannot raise on cell data, so the except branch that would keep
ids as strings is unreachable and has no counterpart here. -/

/-- A track table as clean_track_ids sees it: rows of track_id and track_title,
with the track_id column either object dtype holding optional strings or int64
after a successful conversion. -/
inductive TrackTable
  | strT (rows : List (Option String × String))
  | intT (rows : List (Int × String))
  deriving DecidableEq, Repr

/-- The login-layer mask of clean_track_ids: str.contains of the sentinel with
na treated as False. -/
def loginLayerMask (r : Option String × String) : Bool :=
  match r.1 with
  | some s => strContains s "howLoginLayer"
  | none => false

/-- The error text a pandas string accessor on a non-string column produces. -/
def strAccessorErr : String := "AttributeError: Can only use .str accessor with string values"

/-- clean_track_ids: drop rows whose track_id contains the login sentinel (the
source guards this filter behind a non-emptiness check on the matching rows,
which has the same result), coerce track_id to numeric dropping nulls, and cast
to int64; on a numeric-typed column the string accessor raises. -/
def clean_track_ids : TrackTable → Except String TrackTable
  | .strT rows =>
    let bad := rows.filter loginLayerMask
    let rows1 := if bad.isEmpty then rows else rows.filter (fun r => !(loginLayerMask r))
    .ok (.intT (rows1.filterMap (fun r => (r.1.bind toNumericCell).map (fun n => (n, r.2)))))
  | .intT _ => .error strAccessorErr

/-- C1 counterexample: on a one-row table with track id 123 the first cleaning
run returns the int64 table, and re-running clean_track_ids on that already
cleaned table raises the string-accessor error instead of returning the same
table, so cleaning is not idempotent. -/
theorem clean_track_ids_not_idempotent :
    clean_track_ids (.strT [(some "123", "a")]) = .ok (.intT [(123, "a")]) ∧
    clean_track_ids (.intT [(123, "a")]) = .error strAccessorErr := by
  exact ⟨rfl, rfl⟩

/-- C1 amended: on a string-typed track table cleaning always succeeds, every
row of the returned table originates from an input row whose track_id is
present, free of the login-wall sentinel and numeric-coercible, and re-running
clean_track_ids on the returned (numeric) table raises the string-accessor
error rather than returning the same table. -/
theorem clean_track_ids_sentinel_rows_absent (rows : List (Option String × String)) :
    ∃ out, clean_track_ids (.strT rows) = .ok (.intT out)
      ∧ (∀ p ∈ out, ∃ r ∈ rows, r.2 = p.2 ∧
          ∃ s, r.1 = some s ∧ strContains s "howLoginLayer" = false ∧
            toNumericCell s = some p.1)
      ∧ clean_track_ids (.intT out) = .error strAccessorErr := by
  refine ⟨_, rfl, ?_, rfl⟩
  intro p hp
  have hmem : ∀ r ∈ (if (rows.filter loginLayerMask).isEmpty then rows
      else rows.filter (fun r => !(loginLayerMask r))),
      r ∈ rows ∧ loginLayerMask r = false := by
    intro r hr
    by_cases hb : (rows.filter loginLayerMask).isEmpty
    · rw [if_pos hb] at hr
      refine ⟨hr, ?_⟩
      have hnil : rows.filter loginLayerMask = [] := by
        simpa [List.isEmpty_iff] using hb
      by_contra hmask
      have : r ∈ rows.filter loginLayerMask := by
        rw [List.mem_filter]
        exact ⟨hr, by simpa using hmask⟩
      simp [hnil] at this
    · rw [if_neg hb] at hr
      rw [List.mem_filter] at hr
      exact ⟨hr.1, by simpa using hr.2⟩
  rw [List.mem_filterMap] at hp
  obtain ⟨r, hr, hconv⟩ := hp
  obtain ⟨hrrows, hrmask⟩ := hmem r hr
  rw [Option.map_eq_some'] at hconv
  obtain ⟨n, hbind, hpn⟩ := hconv
  rw [Option.bind_eq_some] at hbind
  obtain ⟨s, hs, hnum⟩ := hbind
  refine ⟨r, hrrows, ?_, s, hs, ?_, ?_⟩
  · rw [← hpn]
  · have := hrmask
    rw [loginLayerMask, hs] at this
    exact this
  · rw [hnum, ← hpn]

/-- C1 witness: the amended cleaning theorem instantiated on a concrete
one-row string-typed table. -/
theorem clean_track_ids_sentinel_rows_absent_witness :
    ∃ out, clean_track_ids (.strT [(some "123", "a")]) = .ok (.intT out)
      ∧ (∀ p ∈ out, ∃ r ∈ [(some "123", "a")], r.2 = p.2 ∧
          ∃ s, r.1 = some s ∧ strContains s "howLoginLayer" = false ∧
            toNumericCell s = some p.1)
      ∧ clean_track_ids (.intT out) = .error strAccessorErr :=
  clean_track_ids_sentinel_rows_absent [(some "123", "a")]

/-! ## Release-date sanitizing (clean_html_tags in cleaning.py)

The source replaces every match of the single-capture-group pattern
time-tag/lazy-attributes/closing-angle, lazy capture, closing time-tag by its
capture, then parses with the coercing datetime conversion. The lazy
subpatterns stop at the first closing angle bracket and the first closing tag,
and the regex wildcard does not cross a newline; both behaviours are modelled
below. The datetime parser is modelled on the ISO year-month-day form the
pipeline produces; every other value coerces to null. -/

/-- Scan to the first closing angle bracket (the lazy wildcard before it may
not cross a newline); returns the suffix after it. -/
def scanToGt : List Char → Option (List Char)
  | [] => none
  | c :: rest => if c = '>' then some rest else if c = '\n' then none else scanToGt rest

/-- Lazily capture up to the first closing time tag; returns the capture and
the suffix after the closing tag. -/
def scanToCloseTag : List Char → Option (List Char × List Char)
  | [] => none
  | c :: rest =>
    if "</time>".data.isPrefixOf (c :: rest) then some ([], rest.drop 6)
    else if c = '\n' then none
    else
      match scanToCloseTag rest with
      | some (cap, after) => some (c :: cap, after)
      | none => none

/-- Try to match the whole wrapping pattern at the head of the list, returning
the capture group and the suffix after the match. -/
def matchTimeAt (s : List Char) : Option (List Char × List Char) :=
  if "<time".data.isPrefixOf s then
    match scanToGt (s.drop 5) with
    | none => none
    | some s2 => scanToCloseTag s2
  else none

/-- Replace every non-overlapping match of the wrapping pattern by its capture,
scanning left to right (fuel bounds the recursion; the top-level call passes
the list length, which always suffices). -/
def subTimeAux : Nat → List Char → List Char
  | 0, s => s
  | _ + 1, [] => []
  | fuel + 1, c :: rest =>
    match matchTimeAt (c :: rest) with
    | some (cap, after) => cap ++ subTimeAux fuel after
    | none => c :: subTimeAux fuel rest

/-- The str.replace step on one release_date cell. -/
def stripTimeTag (s : String) : String :=
  ⟨subTimeAux s.data.length s.data⟩

/-- A calendar date as produced by the datetime conversion. -/
structure CalDate where
  year : Nat
  month : Nat
  day : Nat
  deriving DecidableEq, Repr

def isLeapYear (y : Nat) : Bool :=
  y % 4 == 0 && (y % 100 != 0 || y % 400 == 0)

def daysInMonth (y m : Nat) : Nat :=
  if m == 2 then (if isLeapYear y then 29 else 28)
  else if m == 4 || m == 6 || m == 9 || m == 11 then 30
  else 31

/-- The coercing datetime conversion on one cell, modelled on the ISO
year-month-day form; anything else (including the nan placeholder produced by
astype(str)) coerces to null rather than raising. -/
def to_datetimeCell (s : String) : Option CalDate :=
  match s.data with
  | [y1, y2, y3, y4, h1, m1, m2, h2, d1, d2] =>
    if h1 = '-' ∧ h2 = '-' then
      match digitVal y1, digitVal y2, digitVal y3, digitVal y4,
        digitVal m1, digitVal m2, digitVal d1, digitVal d2 with
      | some a, some b, some c, some d, some e, some f, some g, some k =>
        let y := ((a * 10 + b) * 10 + c) * 10 + d
        let m := e * 10 + f
        let dd := g * 10 + k
        if 1 ≤ m ∧ m ≤ 12 ∧ 1 ≤ dd ∧ dd ≤ daysInMonth y m then some ⟨y, m, dd⟩ else none
      | _, _, _, _, _, _, _, _ => none
    else none
  | _ => none

/-- The release_date branch of clean_html_tags applied to the column: astype
to string (null becomes the nan placeholder), strip the wrapping markup via
the capture group, then coerce to a date. -/
def clean_html_tags_release_date (col : List (Option String)) : List (Option CalDate) :=
  col.map (fun o => to_datetimeCell (stripTimeTag (o.getD "nan")))

/-- C8: sanitizing a release_date value wrapped in a time tag around 2020-01-15
yields that date; an unparseable value (and a null cell) yields null; and the
step is total on the column, producing exactly one output value per row. -/
theorem clean_release_date_strip_and_coerce :
    clean_html_tags_release_date [some "<time>2020-01-15</time>"] = [some ⟨2020, 1, 15⟩] ∧
    clean_html_tags_release_date [some "no date here", none] = [none, none] ∧
    (∀ col, (clean_html_tags_release_date col).length = col.length) := by
  refine ⟨by decide, by decide, ?_⟩
  intro col
  simp [clean_html_tags_release_date]

/-! ## get_artist_albums (bugs_scraping.py)

One structural album block of the artist page: the albumid attribute, and the
four descendants the extractor reads. A missing attribute raises KeyError; the
title and artist descendants are dereferenced with .text, so their absence
raises AttributeError; the time and type descendants are appended as found,
so their absence yields a null cell. No try/except surrounds this extractor. -/

structure AlbumBlock where
  albumid : Option String
  albumTitleDiv : Option String
  artistP : Option String
  timeTag : Option String
  albumTypeSpan : Option String
  deriving DecidableEq, Repr

/-- One row of the album summary table. -/
structure AlbumRow where
  album_id : String
  album_title : String
  artist_name : String
  release_date : Option String
  type : Option String
  artist_id : String
  deriving DecidableEq, Repr

/-- Python-style loop over a list where the body may raise: the first raised
error propagates, aborting the whole extraction. -/
def mapExcept (f : α → Except ε β) : List α → Except ε (List β)
  | [] => .ok []
  | a :: rest =>
    match f a with
    | .error e => .error e
    | .ok b => (mapExcept f rest).map (fun bs => b :: bs)

def keyErrAlbumid : String := "KeyError: albumid"

def attrErrText : String := "AttributeError: NoneType object has no attribute text"

/-- Processing of one album block, in the source's evaluation order. -/
def extract_block (artist_id : String) (b : AlbumBlock) : Except String AlbumRow :=
  match b.albumid with
  | none => .error keyErrAlbumid
  | some i =>
    match b.albumTitleDiv with
    | none => .error attrErrText
    | some t =>
      match b.artistP with
      | none => .error attrErrText
      | some ar => .ok ⟨i, stripNl t, stripNl ar, b.timeTag, b.albumTypeSpan, artist_id⟩

/-- get_artist_albums applied to the parsed album-list document. -/
def get_artist_albums (artist_id : String) (blocks : List AlbumBlock) :
    Except String (List AlbumRow) :=
  mapExcept (extract_block artist_id) blocks

/-- C2 counterexample: an album block carrying its albumid but missing the
title descendant makes get_artist_albums raise AttributeError instead of
substituting a placeholder, refuting the never-raises claim for the title
field (the artist descendant behaves the same way). -/
theorem get_artist_albums_raises_on_missing_title :
    get_artist_albums "a7" [⟨some "42", none, some "Artist", none, none⟩]
      = .error attrErrText := rfl

/-- C2 amended: get_artist_albums substitutes a null placeholder only for a
missing release marker or type marker; a missing albumid raises KeyError and a
missing title or artist descendant raises AttributeError. When every block
carries albumid, title and artist, extraction succeeds, emits one row per
block, and every emitted row draws its album_id from its block's albumid
attribute (hence non-null). -/
theorem get_artist_albums_optional_fields (artist_id : String) (blocks : List AlbumBlock)
    (h : ∀ b ∈ blocks, b.albumid.isSome ∧ b.albumTitleDiv.isSome ∧ b.artistP.isSome) :
    ∃ rows, get_artist_albums artist_id blocks = .ok rows
      ∧ rows.length = blocks.length
      ∧ ∀ r ∈ rows, ∃ b ∈ blocks, b.albumid = some r.album_id
          ∧ r.release_date = b.timeTag ∧ r.type = b.albumTypeSpan
          ∧ r.artist_id = artist_id := by
  induction blocks with
  | nil => exact ⟨[], rfl, rfl, by intro r hr; simp at hr⟩
  | cons b rest ih =>
    obtain ⟨hb, hrest⟩ : (b.albumid.isSome ∧ b.albumTitleDiv.isSome ∧ b.artistP.isSome)
        ∧ ∀ x ∈ rest, x.albumid.isSome ∧ x.albumTitleDiv.isSome ∧ x.artistP.isSome := by
      refine ⟨h b (List.mem_cons_self b rest), fun x hx => h x (List.mem_cons_of_mem b hx)⟩
    obtain ⟨rows, hok, hlen, hprov⟩ := ih hrest
    obtain ⟨i, hi⟩ := Option.isSome_iff_exists.mp hb.1
    obtain ⟨t, ht⟩ := Option.isSome_iff_exists.mp hb.2.1
    obtain ⟨ar, har⟩ := Option.isSome_iff_exists.mp hb.2.2
    refine ⟨⟨i, stripNl t, stripNl ar, b.timeTag, b.albumTypeSpan, artist_id⟩ :: rows, ?_, ?_, ?_⟩
    · show mapExcept (extract_block artist_id) (b :: rest) = _
      simp only [mapExcept, extract_block, hi, ht, har]
      rw [show get_artist_albums artist_id rest = mapExcept (extract_block artist_id) rest
        from rfl] at hok
      rw [hok]
      rfl
    · simpa using hlen
    · intro r hr
      rcases List.mem_cons.mp hr with hhd | htl
      · exact ⟨b, List.mem_cons_self b rest, by rw [hi, hhd], by rw [hhd], by rw [hhd], by rw [hhd]⟩
      · obtain ⟨b', hb', hprops⟩ := hprov r htl
        exact ⟨b', List.mem_cons_of_mem b hb', hprops⟩

/-- C2 witness: the amended extraction theorem on a concrete one-block document
whose optional time and type descendants are absent. -/
theorem get_artist_albums_optional_fields_witness :
    ∃ rows, get_artist_albums "a7" [⟨some "42", some "Title", some "Artist", none, none⟩]
        = .ok rows
      ∧ rows.length = 1
      ∧ ∀ r ∈ rows, ∃ b ∈ [(⟨some "42", some "Title", some "Artist", none, none⟩ : AlbumBlock)],
          b.albumid = some r.album_id ∧ r.release_date = b.timeTag
          ∧ r.type = b.albumTypeSpan ∧ r.artist_id = "a7" :=
  get_artist_albums_optional_fields "a7" _ (by decide)

/-! ## Album page, track page and the scraping orchestration (bugs_scraping.py)

The three remaining extractors wrap their whole body, including the fetch, in
try/except and return null on any failure; get_artist_albums has no such
wrapper, and main calls it outside any try, so an artist-page fetch failure
propagates out of the run. A fetch is modelled as a function from the
identifier to either the parsed page or the HTTP status of a failed response
(raise_for_status). -/

/-- One title block of an album page: the onclick attribute of its anchor (null
when the anchor or the attribute is absent, which raises inside the loop) and
the block's text. -/
structure TitleBlock where
  onclick : Option String
  text : String
  deriving DecidableEq, Repr

/-- A parsed album page: the big-thumbnail image source (null when any link of
the li/a/img chain is absent, which raises), the info tables (null marks a
table without a tbody, which raises), and the title blocks of the track list. -/
structure AlbumPage where
  bigThumb : Option String
  infoTables : List (Option (List String))
  titleBlocks : List TitleBlock
  deriving DecidableEq, Repr

/-- A parsed track page: the time node text and the lyrics container text
(null when absent, which raises). -/
structure LyricsPage where
  timeText : Option String
  lyricsXmp : Option String
  deriving DecidableEq, Repr

/-- The site as seen through fetches: each templated URL either parses to a
page or fails with an HTTP status code. -/
structure Site where
  artistAlbumsPage : String → Except Nat (List AlbumBlock)
  albumPage : String → Except Nat AlbumPage
  trackPage : String → Except Nat LyricsPage

/-- One row of the album details table. -/
structure AlbumDetails where
  album_id : String
  genre : String
  style : String
  distributor : String
  agency : String
  total_duration : String
  thumbnail : String
  deriving DecidableEq, Repr

/-- One row of the track table built by get_album_tracks. -/
structure TrackRow where
  album_id : String
  track_id : String
  track_title : String
  deriving DecidableEq, Repr

/-- One row of the lyrics table built by get_track_lyrics. -/
structure LyricsRow where
  track_id : String
  duration : String
  lyrics : String
  deriving DecidableEq, Repr

/-- The double loop over the info tables collecting stripped cell texts; a
table without a tbody raises, failing the whole collection. -/
def collectCells : List (Option (List String)) → Option (List String)
  | [] => some []
  | none :: _ => none
  | some cells :: rest => (collectCells rest).map (fun acc => cells.map pyStrip ++ acc)

/-- The body of get_album_details on a fetched page: thumbnail first, then the
info-table cells, then the fixed positional reads 2, 3, 5, 6, 7; any missing
piece raises and the surrounding except turns it into null. -/
def get_album_details_core (album_id : String) (p : AlbumPage) : Option AlbumDetails :=
  match p.bigThumb with
  | none => none
  | some th =>
    match collectCells p.infoTables with
    | none => none
    | some cells =>
      match cells[2]?, cells[3]?, cells[5]?, cells[6]?, cells[7]? with
      | some g, some st, some di, some ag, some du =>
        some ⟨album_id, g, st, di, ag, du, th⟩
      | _, _, _, _, _ => none

/-- get_album_details including its fetch: any fetch failure or structural
failure is caught and yields null for that album only. -/
def get_album_details (site : Site) (album_id : String) : Option AlbumDetails :=
  match site.albumPage album_id with
  | .error _ => none
  | .ok p => get_album_details_core album_id p

/-- Python-style loop whose body may raise inside a try/except that nulls the
whole call: all blocks must convert, otherwise the result is null. -/
def mapOption (f : α → Option β) : List α → Option (List β)
  | [] => some []
  | a :: rest =>
    match f a with
    | none => none
    | some b => (mapOption f rest).map (fun bs => b :: bs)

/-- The body of get_album_tracks on a fetched page. -/
def get_album_tracks_core (album_id : String) (p : AlbumPage) : Option (List TrackRow) :=
  mapOption
    (fun tb => tb.onclick.map (fun oc => ⟨album_id, extractTrackId oc, removeNl tb.text⟩))
    p.titleBlocks

/-- get_album_tracks including its fetch; failures yield null for that album. -/
def get_album_tracks (site : Site) (album_id : String) : Option (List TrackRow) :=
  match site.albumPage album_id with
  | .error _ => none
  | .ok p => get_album_tracks_core album_id p

/-- get_track_lyrics including its fetch; failures yield null for that track. -/
def get_track_lyrics (site : Site) (track_id : String) : Option LyricsRow :=
  match site.trackPage track_id with
  | .error _ => none
  | .ok pg =>
    match pg.timeText, pg.lyricsXmp with
    | some du, some ly => some ⟨track_id, du, ⟨replaceCrLf ly.data⟩⟩
    | _, _ => none

/-- get_artist_albums including its fetch: raise_for_status is not caught, so
a failed status propagates, as does any structural error of the extractor. -/
def get_artist_albums_net (site : Site) (artist_id : String) :
    Except String (List AlbumRow) :=
  match site.artistAlbumsPage artist_id with
  | .error code => .error ("HTTPError " ++ toString code)
  | .ok blocks => get_artist_albums artist_id blocks

/-! ### The album cleaning and merge steps of main -/

/-- The four boolean-mask exclusions main applies to the concatenated album
table before any further fetch (case-sensitive substring containment). -/
def isExcludedAlbum (a : AlbumRow) : Bool :=
  strContains a.album_title "권리없는" || strContains a.album_title " OST" ||
  strContains a.album_title "일본" || strContains a.artist_name "Various Artists"

/-- main's album_clean: the four mask filters applied in sequence. -/
def album_clean (albums : List AlbumRow) : List AlbumRow :=
  (((albums.filter (fun a => !(strContains a.album_title "권리없는"))).filter
    (fun a => !(strContains a.album_title " OST"))).filter
    (fun a => !(strContains a.album_title "일본"))).filter
    (fun a => !(strContains a.artist_name "Various Artists"))

/-- A pandas left merge: every left row appears, paired with each matching
right row, or with null when no right row matches. -/
def leftMerge {α β κ : Type} [BEq κ] (ka : α → κ) (kb : β → κ) :
    List α → List β → List (α × Option β)
  | [], _ => []
  | a :: as, rs =>
    (match rs.filter (fun b => kb b == ka a) with
     | [] => [(a, none)]
     | bs => bs.map (fun b => (a, some b))) ++ leftMerge ka kb as rs

/-- drop_duplicates on a key, keeping the first occurrence of each key. -/
def dedupByKeyAux {α κ : Type} [BEq κ] (k : α → κ) (seen : List κ) : List α → List α
  | [] => []
  | a :: rest =>
    if seen.contains (k a) then dedupByKeyAux k seen rest
    else a :: dedupByKeyAux k (k a :: seen) rest

def dedupByKey {α κ : Type} [BEq κ] (k : α → κ) (l : List α) : List α :=
  dedupByKeyAux k [] l

/-- The album-detail fetch loop of main, which skips every album whose
extraction returned null and keeps going. -/
def album_details_of (site : Site) (albums : List AlbumRow) : List AlbumDetails :=
  ((album_clean albums).map (fun a => a.album_id)).filterMap (get_album_details site)

/-- main's album_final: album_clean left-merged with the collected details on
album_id, deduplicated on the album_id, album_title pair. -/
def album_final_of (site : Site) (albums : List AlbumRow) :
    List (AlbumRow × Option AlbumDetails) :=
  dedupByKey (fun p => (p.1.album_id, p.1.album_title))
    (leftMerge (fun a => a.album_id) (fun d => d.album_id)
      (album_clean albums) (album_details_of site albums))

/-- The track fetch loop of main over album_final: the per-album track frames
the loop collects, failed albums skipped; pd.concat later combines them. -/
def album_track_dfs_of (site : Site) (albums : List AlbumRow) : List (List TrackRow) :=
  ((album_final_of site albums).map (fun p => p.1.album_id)).filterMap
    (get_album_tracks site)

/-- The combined track table of main. -/
def album_tracks_of (site : Site) (albums : List AlbumRow) : List TrackRow :=
  (album_track_dfs_of site albums).flatten

/-- The lyrics fetch loop of main over the track table, skipping failed tracks. -/
def track_lyrics_of (site : Site) (albums : List AlbumRow) : List LyricsRow :=
  ((album_tracks_of site albums).map (fun t => t.track_id)).filterMap
    (get_track_lyrics site)

/-- The in-memory artifacts of one scraping run. -/
structure ScrapeOutputs where
  albums : List AlbumRow
  details : List AlbumDetails
  album_final : List (AlbumRow × Option AlbumDetails)
  tracks : List TrackRow
  lyrics : List LyricsRow

/-- The pandas error raised by concatenating an empty collection of frames. -/
def concatErr : String := "ValueError: No objects to concatenate"

/-- main after the artist list is loaded: stage 1 loops get_artist_albums with
no per-identifier protection, so its first failure aborts the run; each of the
four collection points then concatenates the frames it gathered with an
unguarded pd.concat, which raises ValueError when the collection is empty — no
artists at all, no album detail collected, no album track frame collected, or
no lyrics collected (for instance when every fetch of that stage failed) —
otherwise the album table is cleaned and stages 2 to 4 run their
skip-and-continue loops to completion. -/
def runScrape (site : Site) (artistIds : List String) : Except String ScrapeOutputs :=
  match mapExcept (get_artist_albums_net site) artistIds with
  | .error e => .error e
  | .ok [] => .error concatErr
  | .ok (l0 :: ls) =>
    let albums := (l0 :: ls).flatten
    match album_details_of site albums with
    | [] => .error concatErr
    | _ :: _ =>
      match album_track_dfs_of site albums with
      | [] => .error concatErr
      | _ :: _ =>
        match track_lyrics_of site albums with
        | [] => .error concatErr
        | _ :: _ =>
          .ok ⟨album_clean albums, album_details_of site albums,
            album_final_of site albums, album_tracks_of site albums,
            track_lyrics_of site albums⟩

/-- A site whose artist album-list fetch fails with status 404 for one artist
and succeeds (with an empty page) for every other identifier. -/
def siteDown : Site :=
  { artistAlbumsPage := fun aid => if aid = "a1" then .error 404 else .ok []
  , albumPage := fun _ => .error 404
  , trackPage := fun _ => .error 404 }

/-- C3 counterexample: with two artists whose first album-list fetch fails,
the whole run aborts with the propagated HTTP error — the second artist is
never processed — refuting the claim that a fetch failure never aborts the
run for the artist album-list stage. -/
theorem runScrape_aborts_on_artist_fetch_failure :
    runScrape siteDown ["a1", "a2"] = .error "HTTPError 404" := rfl

theorem filterMap_skips_failed {α β : Type} (f : α → Option β) (x : α)
    (hx : f x = none) (pre post : List α) :
    (pre ++ x :: post).filterMap f = pre.filterMap f ++ post.filterMap f := by
  rw [List.filterMap_append, List.filterMap_cons, hx]

/-- C3 amended: a non-success fetch in the album-detail, album-tracks or
track-lyrics stage causes only that identifier's record to be skipped, the
loop continuing over the identifiers before and after it; but the run is
aborted by a fetch failure in the artist album-list stage (the propagated
status error), and also when any collection point gathers nothing to
concatenate — no artist frame at all, no album detail, no album track frame,
or no lyrics row, for instance because every fetch of that stage failed —
since the unguarded pandas concatenation of an empty collection raises
ValueError. When stage 1 succeeds and every collection is non-empty the run
completes with the accumulated outputs. -/
theorem fetch_failures_skip_identifier_only (site : Site) (ids : List String)
    (alls : List (List AlbumRow))
    (h : mapExcept (get_artist_albums_net site) ids = .ok alls) :
    (∀ (pre post : List String) (x : String), get_album_details site x = none →
        (pre ++ x :: post).filterMap (get_album_details site)
          = pre.filterMap (get_album_details site) ++ post.filterMap (get_album_details site))
    ∧ (∀ (pre post : List String) (x : String), get_album_tracks site x = none →
        (pre ++ x :: post).filterMap (get_album_tracks site)
          = pre.filterMap (get_album_tracks site) ++ post.filterMap (get_album_tracks site))
    ∧ (∀ (pre post : List String) (x : String), get_track_lyrics site x = none →
        (pre ++ x :: post).filterMap (get_track_lyrics site)
          = pre.filterMap (get_track_lyrics site) ++ post.filterMap (get_track_lyrics site))
    ∧ (alls = [] ∨ album_details_of site alls.flatten = []
        ∨ album_track_dfs_of site alls.flatten = []
        ∨ track_lyrics_of site alls.flatten = [] →
        runScrape site ids = .error concatErr)
    ∧ (alls ≠ [] → album_details_of site alls.flatten ≠ [] →
        album_track_dfs_of site alls.flatten ≠ [] →
        track_lyrics_of site alls.flatten ≠ [] →
        runScrape site ids = .ok ⟨album_clean alls.flatten,
          album_details_of site alls.flatten, album_final_of site alls.flatten,
          album_tracks_of site alls.flatten, track_lyrics_of site alls.flatten⟩) := by
  refine ⟨?_, ?_, ?_, ?_, ?_⟩
  · intro pre post x hx
    exact filterMap_skips_failed _ x hx pre post
  · intro pre post x hx
    exact filterMap_skips_failed _ x hx pre post
  · intro pre post x hx
    exact filterMap_skips_failed _ x hx pre post
  · intro hcase
    cases alls with
    | nil => simp only [runScrape, h]
    | cons l0 ls =>
      rcases hcase with h4 | h4 | h4 | h4
      · exact absurd h4 (by simp)
      · simp only [runScrape, h, h4]
      · cases hd : album_details_of site ((l0 :: ls).flatten) with
        | nil => simp only [runScrape, h, hd]
        | cons d ds => simp only [runScrape, h, hd, h4]
      · cases hd : album_details_of site ((l0 :: ls).flatten) with
        | nil => simp only [runScrape, h, hd]
        | cons d ds =>
          cases ht : album_track_dfs_of site ((l0 :: ls).flatten) with
          | nil => simp only [runScrape, h, hd, ht]
          | cons t ts => simp only [runScrape, h, hd, ht, h4]
  · intro hne hdet htrk hlyr
    cases alls with
    | nil => exact absurd rfl hne
    | cons l0 ls =>
      cases hd : album_details_of site ((l0 :: ls).flatten) with
      | nil => exact absurd hd hdet
      | cons d ds =>
        cases ht : album_track_dfs_of site ((l0 :: ls).flatten) with
        | nil => exact absurd ht htrk
        | cons t ts =>
          cases hl : track_lyrics_of site ((l0 :: ls).flatten) with
          | nil => exact absurd hl hlyr
          | cons y ys => simp only [runScrape, h, hd, ht, hl]

/-- The album row that siteMixed serves for every artist. -/
def mixedRow : AlbumRow := ⟨"A1", "Clean", "Group", none, none, "w1"⟩

/-- A site with one well-formed artist, album and track. -/
def siteMixed : Site :=
  { artistAlbumsPage := fun _ => .ok [⟨some "A1", some "Clean", some "Group", none, none⟩]
  , albumPage := fun _ => .ok ⟨some "th.jpg",
      [some ["c0", "c1", "g", "s", "c4", "d", "a", "3:00"]],
      [⟨some (onclickPre ++ "777" ++ qs ++ ");"), "Song"⟩]⟩
  , trackPage := fun _ => .ok ⟨some "3:00", some "la la"⟩ }

/-- C3 witness: the amended orchestration theorem's completion branch
discharged on the concrete siteMixed run, whose four collections are all
non-empty. -/
theorem fetch_failures_skip_identifier_only_witness :
    runScrape siteMixed ["w1"]
      = .ok ⟨album_clean [mixedRow], album_details_of siteMixed [mixedRow],
          album_final_of siteMixed [mixedRow], album_tracks_of siteMixed [mixedRow],
          track_lyrics_of siteMixed [mixedRow]⟩ :=
  (fetch_failures_skip_identifier_only siteMixed ["w1"] [[mixedRow]]
      rfl).2.2.2.2 (by decide) (by decide) (by decide) (by decide)

/-- C9: get_album_details reads the info-table cell sequence at the fixed
positions 2, 3, 5, 6 and 7 as genre, style, distributor, agency and total
duration; a page without the required thumbnail, with a malformed info table,
or with fewer cells than the required indices yields null (the failure is
reported and confined to that album) instead of raising. -/
theorem get_album_details_fixed_positions (aid : String) (p : AlbumPage) :
    (p.bigThumb = none → get_album_details_core aid p = none)
    ∧ (collectCells p.infoTables = none → get_album_details_core aid p = none)
    ∧ (∀ cells, collectCells p.infoTables = some cells → cells.length < 8 →
        get_album_details_core aid p = none)
    ∧ (∀ th cells, p.bigThumb = some th → collectCells p.infoTables = some cells →
        8 ≤ cells.length →
        ∃ d, get_album_details_core aid p = some d ∧ d.album_id = aid ∧ d.thumbnail = th
          ∧ cells[2]? = some d.genre ∧ cells[3]? = some d.style
          ∧ cells[5]? = some d.distributor ∧ cells[6]? = some d.agency
          ∧ cells[7]? = some d.total_duration) := by
  refine ⟨?_, ?_, ?_, ?_⟩
  · intro hth
    simp [get_album_details_core, hth]
  · intro hcells
    cases hth : p.bigThumb with
    | none => simp [get_album_details_core, hth]
    | some th => simp [get_album_details_core, hth, hcells]
  · intro cells hcells hlen
    cases hth : p.bigThumb with
    | none => simp [get_album_details_core, hth]
    | some th =>
      have h7 : cells[7]? = none := List.getElem?_eq_none (by omega)
      simp only [get_album_details_core, hth, hcells]
      cases h2 : cells[2]? <;> cases h3 : cells[3]? <;> cases h5 : cells[5]? <;>
        cases h6 : cells[6]? <;> simp [h7]
  · intro th cells hth hcells hlen
    have hget : ∀ i, i < 8 → ∃ v, cells[i]? = some v := by
      intro i hi
      cases hgi : cells[i]? with
      | none =>
        have := List.getElem?_eq_none_iff.mp hgi
        omega
      | some v => exact ⟨v, rfl⟩
    obtain ⟨g, h2⟩ := hget 2 (by omega)
    obtain ⟨st, h3⟩ := hget 3 (by omega)
    obtain ⟨di, h5⟩ := hget 5 (by omega)
    obtain ⟨ag, h6⟩ := hget 6 (by omega)
    obtain ⟨du, h7⟩ := hget 7 (by omega)
    refine ⟨⟨aid, g, st, di, ag, du, th⟩, ?_, rfl, rfl, h2, h3, h5, h6, h7⟩
    simp [get_album_details_core, hth, hcells, h2, h3, h5, h6, h7]

/-- C9 witness: the characterization applied to a concrete page with a
thumbnail and eight info cells, and to a page whose thumbnail chain is broken. -/
theorem get_album_details_fixed_positions_witness :
    (∃ d, get_album_details_core "al1"
        ⟨some "thumb.jpg", [some ["c0", "c1", "genre", "style", "c4", "dist", "agency", "3:01"]], []⟩
        = some d ∧ d.album_id = "al1" ∧ d.thumbnail = "thumb.jpg"
      ∧ ["c0", "c1", "genre", "style", "c4", "dist", "agency", "3:01"][2]? = some d.genre
      ∧ ["c0", "c1", "genre", "style", "c4", "dist", "agency", "3:01"][3]? = some d.style
      ∧ ["c0", "c1", "genre", "style", "c4", "dist", "agency", "3:01"][5]? = some d.distributor
      ∧ ["c0", "c1", "genre", "style", "c4", "dist", "agency", "3:01"][6]? = some d.agency
      ∧ ["c0", "c1", "genre", "style", "c4", "dist", "agency", "3:01"][7]? = some d.total_duration)
    ∧ get_album_details_core "al2" ⟨none, [], []⟩ = none := by
  constructor
  · exact (get_album_details_fixed_positions "al1"
      ⟨some "thumb.jpg", [some ["c0", "c1", "genre", "style", "c4", "dist", "agency", "3:01"]], []⟩).2.2.2
      "thumb.jpg" ["c0", "c1", "genre", "style", "c4", "dist", "agency", "3:01"] rfl (by decide) (by decide)
  · exact (get_album_details_fixed_positions "al2" ⟨none, [], []⟩).1 rfl

/-! ### Structural lemmas about the merge and dedup primitives -/

theorem leftMerge_left_total {α β κ : Type} [BEq κ] (ka : α → κ) (kb : β → κ)
    (ls : List α) (rs : List β) :
    ∀ a ∈ ls, ∃ p ∈ leftMerge ka kb ls rs, p.1 = a := by
  induction ls with
  | nil => intro a ha; simp at ha
  | cons x xs ih =>
    intro a ha
    rcases List.mem_cons.mp ha with rfl | hmem
    · cases hf : rs.filter (fun b => kb b == ka a) with
      | nil =>
        refine ⟨(a, none), ?_, rfl⟩
        simp [leftMerge, hf]
      | cons b bs =>
        refine ⟨(a, some b), ?_, rfl⟩
        simp [leftMerge, hf]
    · obtain ⟨p, hp, hpa⟩ := ih a hmem
      refine ⟨p, ?_, hpa⟩
      simp only [leftMerge]
      exact List.mem_append_right _ hp

theorem leftMerge_mem {α β κ : Type} [BEq κ] [LawfulBEq κ] (ka : α → κ) (kb : β → κ)
    (ls : List α) (rs : List β) :
    ∀ p ∈ leftMerge ka kb ls rs, p.1 ∈ ls ∧
      (p.2 = none ∨ ∃ b ∈ rs, p.2 = some b ∧ kb b = ka p.1) := by
  induction ls with
  | nil => intro p hp; simp [leftMerge] at hp
  | cons x xs ih =>
    intro p hp
    cases hf : rs.filter (fun b => kb b == ka x) with
    | nil =>
      simp only [leftMerge, hf] at hp
      rcases List.mem_append.mp hp with hblk | hrec
      · have hpx : p = (x, none) := by simpa using hblk
        subst hpx
        exact ⟨List.mem_cons_self x xs, Or.inl rfl⟩
      · obtain ⟨h1, h2⟩ := ih p hrec
        exact ⟨List.mem_cons_of_mem x h1, h2⟩
    | cons b bs =>
      simp only [leftMerge, hf] at hp
      rcases List.mem_append.mp hp with hblk | hrec
      · rw [List.mem_map] at hblk
        obtain ⟨b', hb', rfl⟩ := hblk
        have hbf : b' ∈ rs.filter (fun b => kb b == ka x) := by
          rw [hf]; exact hb'
        rw [List.mem_filter] at hbf
        exact ⟨List.mem_cons_self x xs, Or.inr ⟨b', hbf.1, rfl, eq_of_beq hbf.2⟩⟩
      · obtain ⟨h1, h2⟩ := ih p hrec
        exact ⟨List.mem_cons_of_mem x h1, h2⟩

theorem dedupByKeyAux_subset {α κ : Type} [BEq κ] (k : α → κ) :
    ∀ (l : List α) (seen : List κ), ∀ x ∈ dedupByKeyAux k seen l, x ∈ l := by
  intro l
  induction l with
  | nil => intro seen x hx; simp [dedupByKeyAux] at hx
  | cons a rest ih =>
    intro seen x hx
    cases hc : seen.contains (k a) with
    | true =>
      simp only [dedupByKeyAux, hc, if_true] at hx
      exact List.mem_cons_of_mem a (ih seen x hx)
    | false =>
      simp only [dedupByKeyAux, hc, if_false] at hx
      rcases List.mem_cons.mp hx with rfl | h
      · exact List.mem_cons_self x rest
      · exact List.mem_cons_of_mem a (ih _ x h)

theorem dedupByKeyAux_key_total {α κ : Type} [BEq κ] [LawfulBEq κ] (k : α → κ) :
    ∀ (l : List α) (seen : List κ), ∀ x ∈ l,
      seen.contains (k x) = true ∨ ∃ y ∈ dedupByKeyAux k seen l, k y = k x := by
  intro l
  induction l with
  | nil => intro seen x hx; simp at hx
  | cons a rest ih =>
    intro seen x hx
    cases hc : seen.contains (k a) with
    | true =>
      rcases List.mem_cons.mp hx with rfl | h
      · exact Or.inl hc
      · rcases ih seen x h with hs | ⟨y, hy, hky⟩
        · exact Or.inl hs
        · refine Or.inr ⟨y, ?_, hky⟩
          simp only [dedupByKeyAux, hc, if_true]
          exact hy
    | false =>
      rcases List.mem_cons.mp hx with rfl | h
      · refine Or.inr ⟨x, ?_, rfl⟩
        simp only [dedupByKeyAux, hc, if_false]
        exact List.mem_cons_self x _
      · rcases ih (k a :: seen) x h with hs | ⟨y, hy, hky⟩
        · have hs' : ((k x == k a) || seen.contains (k x)) = true := by
            simpa [List.contains_cons] using hs
          rcases Bool.or_eq_true_iff.mp hs' with hxa | hseen
          · refine Or.inr ⟨a, ?_, (eq_of_beq hxa).symm⟩
            simp only [dedupByKeyAux, hc, if_false]
            exact List.mem_cons_self a _
          · exact Or.inl hseen
        · refine Or.inr ⟨y, ?_, hky⟩
          simp only [dedupByKeyAux, hc, if_false]
          exact List.mem_cons_of_mem a hy

theorem mapOption_mem {α β : Type} {f : α → Option β} :
    ∀ {l : List α} {bs : List β}, mapOption f l = some bs → ∀ b ∈ bs, ∃ a ∈ l, f a = some b := by
  intro l
  induction l with
  | nil =>
    intro bs h b hb
    simp only [mapOption, Option.some.injEq] at h
    subst h
    simp at hb
  | cons a rest ih =>
    intro bs h b hb
    rcases hfa : f a with _ | b0
    · rw [mapOption, hfa] at h
      simp at h
    · rw [mapOption, hfa] at h
      rcases hrest : mapOption f rest with _ | bs0
      · rw [hrest] at h
        simp at h
      · rw [hrest] at h
        simp only [Option.map_some', Option.some.injEq] at h
        subst h
        rcases List.mem_cons.mp hb with rfl | hbs
        · exact ⟨a, List.mem_cons_self a rest, hfa⟩
        · obtain ⟨a', ha', hfa'⟩ := ih hrest b hbs
          exact ⟨a', List.mem_cons_of_mem a ha', hfa'⟩

/-! ### Provenance lemmas for the pipeline stages -/

theorem mem_album_clean {albums : List AlbumRow} {b : AlbumRow} :
    b ∈ album_clean albums ↔ b ∈ albums ∧ isExcludedAlbum b = false := by
  simp only [album_clean, List.mem_filter, isExcludedAlbum, Bool.not_eq_true',
    Bool.or_eq_false_iff]
  tauto

theorem album_final_fst_mem {site : Site} {albums : List AlbumRow} :
    ∀ p ∈ album_final_of site albums, p.1 ∈ album_clean albums := by
  intro p hp
  have hp1 := dedupByKeyAux_subset _ _ _ p hp
  exact (leftMerge_mem _ _ _ _ p hp1).1

theorem get_album_tracks_core_album_id {aid : String} {p : AlbumPage} {rows : List TrackRow} :
    get_album_tracks_core aid p = some rows → ∀ r ∈ rows, r.album_id = aid := by
  intro h r hr
  obtain ⟨tb, _, htb⟩ := mapOption_mem h r hr
  rcases hoc : tb.onclick with _ | oc
  · rw [hoc] at htb; simp at htb
  · rw [hoc] at htb
    simp only [Option.map_some', Option.some.injEq] at htb
    rw [← htb]

theorem album_tracks_album_id {site : Site} {albums : List AlbumRow} :
    ∀ t ∈ album_tracks_of site albums,
      ∃ p ∈ album_final_of site albums, t.album_id = p.1.album_id := by
  intro t ht
  rw [album_tracks_of, List.mem_flatten] at ht
  obtain ⟨rows, hrows, htr⟩ := ht
  rw [album_track_dfs_of, List.mem_filterMap] at hrows
  obtain ⟨aid, haid, hsome⟩ := hrows
  rw [List.mem_map] at haid
  obtain ⟨p, hp, rfl⟩ := haid
  refine ⟨p, hp, ?_⟩
  rw [get_album_tracks] at hsome
  rcases hpage : site.albumPage p.1.album_id with code | page
  · rw [hpage] at hsome; simp at hsome
  · rw [hpage] at hsome
    exact get_album_tracks_core_album_id hsome t htr

/-- C10: before any album-detail, track or lyrics fetch, main removes from the
album table every row whose album_title contains, case-sensitively, the
rights-free marker, the OST marker (absent from the cleaning-stage filter
markers) or the Japan marker, or whose artist_name contains the various-artists
marker; such a row never reaches album_final, and when no surviving row shares
its album_id, that album_id is never fetched for details, never fetched for
tracks, and no track row (hence no lyrics fetch) carries it. -/
theorem excluded_albums_never_processed (albums : List AlbumRow) (a : AlbumRow)
    (_ha : a ∈ albums) (hex : isExcludedAlbum a = true) :
    a ∉ album_clean albums
    ∧ (∀ site : Site, ∀ p ∈ album_final_of site albums, p.1 ≠ a)
    ∧ ((∀ b ∈ albums, b.album_id = a.album_id → isExcludedAlbum b = true) →
        (∀ b ∈ album_clean albums, b.album_id ≠ a.album_id)
        ∧ (∀ site : Site, ∀ p ∈ album_final_of site albums, p.1.album_id ≠ a.album_id)
        ∧ (∀ site : Site, ∀ t ∈ album_tracks_of site albums, t.album_id ≠ a.album_id)) := by
  have hnotclean : a ∉ album_clean albums := by
    intro hmem
    have := (mem_album_clean.mp hmem).2
    rw [hex] at this
    exact (Bool.true_eq_false.mp this).elim
  refine ⟨hnotclean, ?_, ?_⟩
  · intro site p hp hpa
    exact hnotclean (hpa ▸ album_final_fst_mem p hp)
  · intro huniq
    have hcleanid : ∀ b ∈ album_clean albums, b.album_id ≠ a.album_id := by
      intro b hb hbid
      obtain ⟨hbmem, hbex⟩ := mem_album_clean.mp hb
      have := huniq b hbmem hbid
      rw [hbex] at this
      exact (Bool.false_eq_true.mp this).elim
    refine ⟨hcleanid, ?_, ?_⟩
    · intro site p hp
      exact hcleanid p.1 (album_final_fst_mem p hp)
    · intro site t ht
      obtain ⟨p, hp, hpid⟩ := album_tracks_album_id t ht
      rw [hpid]
      exact hcleanid p.1 (album_final_fst_mem p hp)

/-- C10 witness: a concrete two-row album table whose first row carries the
OST marker; it is removed, never reaches album_final, and its id is never
fetched downstream. -/
theorem excluded_albums_never_processed_witness :
    (⟨"9001", "Film OST Part 1", "Group", none, none, "art1"⟩ : AlbumRow)
        ∉ album_clean [⟨"9001", "Film OST Part 1", "Group", none, none, "art1"⟩,
            ⟨"9002", "Clean Album", "Group", none, none, "art1"⟩]
    ∧ (∀ site : Site, ∀ p ∈ album_final_of site
          [⟨"9001", "Film OST Part 1", "Group", none, none, "art1"⟩,
            ⟨"9002", "Clean Album", "Group", none, none, "art1"⟩],
        p.1 ≠ ⟨"9001", "Film OST Part 1", "Group", none, none, "art1"⟩)
    ∧ ((∀ b ∈ [(⟨"9001", "Film OST Part 1", "Group", none, none, "art1"⟩ : AlbumRow),
            ⟨"9002", "Clean Album", "Group", none, none, "art1"⟩],
          b.album_id = "9001" → isExcludedAlbum b = true) →
        (∀ b ∈ album_clean [⟨"9001", "Film OST Part 1", "Group", none, none, "art1"⟩,
            ⟨"9002", "Clean Album", "Group", none, none, "art1"⟩], b.album_id ≠ "9001")
        ∧ (∀ site : Site, ∀ p ∈ album_final_of site
              [⟨"9001", "Film OST Part 1", "Group", none, none, "art1"⟩,
                ⟨"9002", "Clean Album", "Group", none, none, "art1"⟩],
            p.1.album_id ≠ "9001")
        ∧ (∀ site : Site, ∀ t ∈ album_tracks_of site
              [⟨"9001", "Film OST Part 1", "Group", none, none, "art1"⟩,
                ⟨"9002", "Clean Album", "Group", none, none, "art1"⟩],
            t.album_id ≠ "9001")) :=
  excluded_albums_never_processed
    [⟨"9001", "Film OST Part 1", "Group", none, none, "art1"⟩,
      ⟨"9002", "Clean Album", "Group", none, none, "art1"⟩]
    ⟨"9001", "Film OST Part 1", "Group", none, none, "art1"⟩
    (by decide) (by decide)

/-! ## The merge chain of process_data (cleaning.py)

The cleaning pipeline left-merges the album table with the cleaned track table
on album_id and then left-merges the result with the lyrics table on track_id.
After the album-track merge the track_id of a row is null when the album had
no matching track, and pandas matches null keys to null keys, which the
Option-valued key below reproduces. -/

/-- An album row as the cleaning merge sees it (the key and the payload the
claims inspect). -/
structure CAlbumRow where
  album_id : String
  album_title : String
  deriving DecidableEq, Repr

/-- A track row after clean_track_ids, with an int64 track_id. -/
structure CTrackRow where
  album_id : String
  track_id : Int
  track_title : String
  deriving DecidableEq, Repr

/-- A lyrics row at merge time; its track_id may be null after a coercing
reconciliation. -/
structure CLyricsRow where
  track_id : Option Int
  duration : String
  lyrics : String
  deriving DecidableEq, Repr

/-- The first left merge of process_data: albums with tracks on album_id. -/
def merge_album_track (albums : List CAlbumRow) (tracks : List CTrackRow) :
    List (CAlbumRow × Option CTrackRow) :=
  leftMerge (fun a => a.album_id) (fun t => t.album_id) albums tracks

/-- The second left merge: the combined table with lyrics on track_id. -/
def df_total_of (albums : List CAlbumRow) (tracks : List CTrackRow)
    (lyr : List CLyricsRow) : List ((CAlbumRow × Option CTrackRow) × Option CLyricsRow) :=
  leftMerge (fun p => p.2.map (fun t => t.track_id)) (fun l => l.track_id)
    (merge_album_track albums tracks) lyr

/-- C6: the merge stage is left-preserving and fabricates no rows: every album
row of the album table appears in at least one row of the merged output before
filtering, even with no matching track or lyrics row (the missing side
contributing null); every merged row carries an album row of the input and
either a null track or an input track row matching that album's id; and in
main's album-detail merge every cleaned album row keeps at least one
album_final row with its album_id and album_title. -/
theorem merge_left_preserving_no_fabrication (albums : List CAlbumRow)
    (tracks : List CTrackRow) (lyr : List CLyricsRow) :
    (∀ a ∈ albums, ∃ row ∈ df_total_of albums tracks lyr, row.1.1 = a)
    ∧ (∀ row ∈ df_total_of albums tracks lyr, row.1.1 ∈ albums ∧
        (row.1.2 = none ∨ ∃ t ∈ tracks, row.1.2 = some t ∧ t.album_id = row.1.1.album_id))
    ∧ (∀ (site : Site) (balbums : List AlbumRow), ∀ b ∈ album_clean balbums,
        ∃ p ∈ album_final_of site balbums,
          p.1.album_id = b.album_id ∧ p.1.album_title = b.album_title) := by
  refine ⟨?_, ?_, ?_⟩
  · intro a ha
    obtain ⟨q, hq, hqa⟩ := leftMerge_left_total (fun a => a.album_id)
      (fun t => t.album_id) albums tracks a ha
    obtain ⟨row, hrow, hrowq⟩ := leftMerge_left_total
      (fun p => p.2.map (fun t => t.track_id)) (fun l => l.track_id)
      (merge_album_track albums tracks) lyr q hq
    exact ⟨row, hrow, by rw [hrowq, hqa]⟩
  · intro row hrow
    rw [df_total_of] at hrow
    have houter := leftMerge_mem (fun p => p.2.map (fun t => t.track_id))
      (fun l => l.track_id) (merge_album_track albums tracks) lyr row hrow
    have h1 := houter.1
    rw [merge_album_track] at h1
    have hinner := leftMerge_mem (fun a => a.album_id) (fun t => t.album_id)
      albums tracks row.1 h1
    refine ⟨hinner.1, ?_⟩
    rcases hinner.2 with hnone | ⟨t, ht, hsome, hkey⟩
    · exact Or.inl hnone
    · exact Or.inr ⟨t, ht, hsome, hkey⟩
  · intro site balbums b hb
    obtain ⟨q, hq, hqb⟩ := leftMerge_left_total (fun a => a.album_id)
      (fun d => d.album_id) (album_clean balbums) (album_details_of site balbums) b hb
    rcases dedupByKeyAux_key_total (fun p => (p.1.album_id, p.1.album_title))
        (leftMerge (fun a => a.album_id) (fun d => d.album_id)
          (album_clean balbums) (album_details_of site balbums)) [] q hq with hseen | hkeep
    · simp [List.contains] at hseen
    · obtain ⟨y, hy, hky⟩ := hkeep
      have hkey : (y.1.album_id, y.1.album_title) = (q.1.album_id, q.1.album_title) := hky
      rw [hqb] at hkey
      exact ⟨y, hy, congrArg Prod.fst hkey, congrArg Prod.snd hkey⟩

/-- C6 witness: a one-album table with no tracks and no lyrics still yields a
merged row carrying that album. -/
theorem merge_left_preserving_no_fabrication_witness :
    ∃ row ∈ df_total_of [⟨"A1", "Title"⟩] [] [], row.1.1 = (⟨"A1", "Title"⟩ : CAlbumRow) :=
  (merge_left_preserving_no_fabrication [⟨"A1", "Title"⟩] [] []).1
    ⟨"A1", "Title"⟩ (by decide)

/-! ## The track_id reconciliation of process_data (cleaning.py)

A pandas track_id column at the join point: int64 after a clean conversion,
float64 when nulls entered through the left merge, or an object column of
optional strings. process_data compares the dtypes of the merged table and the
lyrics table; when they differ it checks whether the merged side is numeric,
in which case the lyrics side alone is passed through the coercing numeric
conversion (no rows are dropped), and otherwise casts both sides to strings. -/

inductive IdSeries
  | ints (vals : List Int)
  | floats (vals : List (Option Int))
  | strs (vals : List (Option String))
  deriving DecidableEq, Repr

/-- dtype equality of two columns. -/
def sameDtype : IdSeries → IdSeries → Bool
  | .ints _, .ints _ => true
  | .floats _, .floats _ => true
  | .strs _, .strs _ => true
  | _, _ => false

/-- pd.api.types.is_numeric_dtype. -/
def is_numeric_dtype : IdSeries → Bool
  | .ints _ => true
  | .floats _ => true
  | .strs _ => false

/-- pd.to_numeric in coercing mode on a whole column: numeric columns pass
through; an object column parses each cell, giving int64 when every cell
parses and float64 with nulls otherwise. -/
def to_numeric_coerce : IdSeries → IdSeries
  | .ints l => .ints l
  | .floats l => .floats l
  | .strs l =>
    let parsed := l.map (fun o => o.bind toNumericCell)
    if parsed.all (fun o => o.isSome) then .ints (parsed.filterMap id) else .floats parsed

/-- astype(str) on a column: every cell becomes its string rendering, nulls
becoming the nan placeholder. -/
def astype_str_series : IdSeries → IdSeries
  | .ints l => .strs (l.map (fun n => some (toString n)))
  | .floats l => .strs (l.map (fun o => some (match o with
      | none => "nan"
      | some n => toString n ++ ".0")))
  | .strs l => .strs (l.map (fun o => some (o.getD "nan")))

/-- The reconciliation block of process_data on the two track_id columns,
merged table first, lyrics table second. -/
def reconcile_track_ids (dfTotal lyr : IdSeries) : IdSeries × IdSeries :=
  if sameDtype dfTotal lyr then (dfTotal, lyr)
  else if is_numeric_dtype dfTotal then (dfTotal, to_numeric_coerce lyr)
  else (astype_str_series dfTotal, astype_str_series lyr)

def seriesLen : IdSeries → Nat
  | .ints l => l.length
  | .floats l => l.length
  | .strs l => l.length

theorem to_numeric_coerce_len (s : IdSeries) :
    seriesLen (to_numeric_coerce s) = seriesLen s := by
  cases s with
  | ints l => rfl
  | floats l => rfl
  | strs l =>
    simp only [to_numeric_coerce, seriesLen]
    by_cases h : (l.map (fun o => o.bind toNumericCell)).all (fun o => o.isSome)
    · rw [if_pos h]
      show (List.filterMap id _).length = _
      rw [← List.length_map l (fun o => o.bind toNumericCell)]
      generalize l.map (fun o => o.bind toNumericCell) = parsed at h ⊢
      induction parsed with
      | nil => rfl
      | cons o rest ih =>
        rw [List.all_cons, Bool.and_eq_true] at h
        obtain ⟨v, rfl⟩ := Option.isSome_iff_exists.mp h.1
        simp only [List.filterMap_cons, id, List.length_cons]
        rw [ih h.2]
    · rw [if_neg h]
      simp [seriesLen]

/-- C5 amended: after the reconciliation step the two track_id columns always
have identical representation, both numeric or both text, and the step drops
no row from either side; but the numeric direction is taken only when the
merged (left) column is numeric — a numeric-coercible lyrics column facing a
text merged column sends both sides to text — and non-coercible lyrics values
become null while their rows are retained, not dropped. -/
theorem reconcile_track_ids_type_consistent (a b : IdSeries) :
    is_numeric_dtype (reconcile_track_ids a b).1 = is_numeric_dtype (reconcile_track_ids a b).2
    ∧ seriesLen (reconcile_track_ids a b).1 = seriesLen a
    ∧ seriesLen (reconcile_track_ids a b).2 = seriesLen b
    ∧ (sameDtype a b = false → is_numeric_dtype a = true →
        reconcile_track_ids a b = (a, to_numeric_coerce b))
    ∧ (sameDtype a b = false → is_numeric_dtype a = false →
        reconcile_track_ids a b = (astype_str_series a, astype_str_series b)) := by
  have hnum : ∀ s : IdSeries, is_numeric_dtype (to_numeric_coerce s) = true := by
    intro s
    cases s with
    | ints l => rfl
    | floats l => rfl
    | strs l =>
      simp only [to_numeric_coerce]
      split <;> rfl
  have hastype : ∀ s : IdSeries, is_numeric_dtype (astype_str_series s) = false := by
    intro s
    cases s <;> rfl
  have hastypelen : ∀ s : IdSeries, seriesLen (astype_str_series s) = seriesLen s := by
    intro s
    cases s <;> simp [astype_str_series, seriesLen]
  by_cases h1 : sameDtype a b = true
  · rw [reconcile_track_ids, if_pos h1]
    refine ⟨?_, rfl, rfl, ?_, ?_⟩
    · cases a <;> cases b <;> first | rfl | simp [sameDtype] at h1
    · intro hs _; rw [h1] at hs; exact absurd hs (by simp)
    · intro hs _; rw [h1] at hs; exact absurd hs (by simp)
  · rw [reconcile_track_ids, if_neg h1]
    by_cases h2 : is_numeric_dtype a = true
    · rw [if_pos h2]
      refine ⟨?_, rfl, to_numeric_coerce_len b, fun _ _ => rfl, ?_⟩
      · rw [h2, (hnum b).symm]
      · intro _ hn; rw [h2] at hn; exact absurd hn (by simp)
    · rw [if_neg h2]
      refine ⟨?_, hastypelen a, hastypelen b, ?_, fun _ _ => rfl⟩
      · rw [hastype a, hastype b]
      · intro _ hn
        rw [Bool.not_eq_true] at h2
        rw [h2] at hn
        exact absurd hn (by simp)

/-- C5 counterexample: a text merged column facing an int64 (numeric-coercible)
lyrics column is reconciled to text on both sides, not to numeric as the claim
states; and a numeric merged column facing a non-coercible lyrics value turns
that value into null but keeps its row. -/
theorem reconcile_track_ids_numeric_side_ignored :
    reconcile_track_ids (.strs [some "abc"]) (.ints [7])
        = (.strs [some "abc"], .strs [some "7"])
    ∧ is_numeric_dtype (.ints [7]) = true
    ∧ is_numeric_dtype (reconcile_track_ids (.strs [some "abc"]) (.ints [7])).2 = false
    ∧ reconcile_track_ids (.ints [5]) (.strs [some "abc"])
        = (.ints [5], .floats [none]) := by
  refine ⟨rfl, rfl, rfl, rfl⟩

/-- C5 witness: the amended reconciliation theorem's numeric branch discharged
on an int64 merged column facing a text lyrics column. -/
theorem reconcile_track_ids_type_consistent_witness :
    reconcile_track_ids (.ints [5]) (.strs [some "7"])
      = (.ints [5], to_numeric_coerce (.strs [some "7"])) :=
  (reconcile_track_ids_type_consistent (.ints [5]) (.strs [some "7"])).2.2.2.1 rfl rfl

/-! ## filter_data (cleaning.py)

The merged table at filtering time carries the four columns the predicates
inspect. The two lyrics conditions of the source are applied as two successive
boolean-mask filters; the claim's four predicates group them as one. The title
patterns are case-insensitive regex alternations whose only metacharacter is
the dot at the end of the version marker, which matches any character except a
newline. -/

structure MergedRow where
  artist_name : String
  lyrics : String
  album_title : String
  track_title : String
  deriving DecidableEq, Repr

/-- Case-insensitive containment of the pattern space-v-e-r-dot: the literal
part followed by one arbitrary non-newline character. -/
def containsVerDot : List Char → Bool
  | [] => false
  | c :: rest =>
    (" ver".data.isPrefixOf (c :: rest) &&
      (match (c :: rest).drop 4 with
       | [] => false
       | d :: _ => d != '\n')) || containsVerDot rest

/-- The album_title noise alternation of filter_data, on a lowercased title. -/
def matchesAlbumNoise (s : String) : Bool :=
  let h := lowerL s.data
  containsSub "remix".data h || containsSub "japan".data h || containsSub "일본".data h ||
  containsSub "inst".data h || containsSub "repackage".data h ||
  containsSub "chinese".data h || containsVerDot h

/-- The track_title noise alternation of filter_data, on a lowercased title. -/
def matchesTrackNoise (s : String) : Bool :=
  let h := lowerL s.data
  containsSub "권리없는".data h || containsSub "remix".data h || containsSub "japan".data h ||
  containsSub "chinese".data h || containsSub " inst ".data h || containsVerDot h

def keepArtist (r : MergedRow) : Bool := r.artist_name != "Various Artists"

def keepLyricsNonblank (r : MergedRow) : Bool := pyStrip r.lyrics != ""

def keepLyricsNotNan (r : MergedRow) : Bool := r.lyrics != "nan"

/-- The claim's single lyrics predicate, the conjunction of the source's two
masks. -/
def keepLyrics (r : MergedRow) : Bool := keepLyricsNonblank r && keepLyricsNotNan r

def keepAlbumTitle (r : MergedRow) : Bool := !(matchesAlbumNoise r.album_title)

def keepTrackTitle (r : MergedRow) : Bool := !(matchesTrackNoise r.track_title)

/-- filter_data: the source's five boolean-mask filters in their order. -/
def filter_data (df : List MergedRow) : List MergedRow :=
  ((((df.filter keepArtist).filter keepLyricsNonblank).filter
    keepLyricsNotNan).filter keepAlbumTitle).filter keepTrackTitle

/-- Applying a sequence of row predicates as successive filters. -/
def filterSeq (ps : List (MergedRow → Bool)) (df : List MergedRow) : List MergedRow :=
  ps.foldl (fun t p => t.filter p) df

theorem filter_filter_comb (p q : MergedRow → Bool) (l : List MergedRow) :
    (l.filter p).filter q = l.filter (fun r => p r && q r) := by
  induction l with
  | nil => rfl
  | cons a rest ih =>
    cases hp : p a <;> cases hq : q a <;>
      simp [List.filter_cons, hp, hq, ih]

theorem filterSeq_eq_filter_all (ps : List (MergedRow → Bool)) (df : List MergedRow) :
    filterSeq ps df = df.filter (fun r => ps.all (fun p => p r)) := by
  induction ps generalizing df with
  | nil => simp [filterSeq, List.filter_true]
  | cons p rest ih =>
    show filterSeq rest (df.filter p) = _
    rw [ih (df.filter p)]
    rw [filter_filter_comb]
    rfl

theorem perm_all_eq {ps qs : List (MergedRow → Bool)} (h : List.Perm ps qs) :
    ∀ r, ps.all (fun p => p r) = qs.all (fun p => p r) := by
  induction h with
  | nil => intro r; rfl
  | cons x _ ih =>
    intro r
    simp [List.all_cons, ih r]
  | swap x y l =>
    intro r
    simp only [List.all_cons]
    exact Bool.and_left_comm (y r) (x r) _
  | trans _ _ ih1 ih2 =>
    intro r
    rw [ih1 r, ih2 r]

/-- C7: filter_data is monotonic, returning a sublist of its input (it removes
rows and never adds or mutates survivors), and its four removal predicates are
order-independent: filtering by them in any order yields the same final rows. -/
theorem filter_data_monotone_order_independent (df : List MergedRow) :
    List.Sublist (filter_data df) df
    ∧ ∀ ps, List.Perm ps [keepArtist, keepLyrics, keepAlbumTitle, keepTrackTitle] →
        filterSeq ps df = filter_data df := by
  constructor
  · exact ((((List.filter_sublist _).trans (List.filter_sublist _)).trans
      (List.filter_sublist _)).trans (List.filter_sublist _)).trans (List.filter_sublist _)
  · intro ps hperm
    have hcanon : filter_data df
        = filterSeq [keepArtist, keepLyrics, keepAlbumTitle, keepTrackTitle] df := by
      show ((((df.filter keepArtist).filter keepLyricsNonblank).filter
          keepLyricsNotNan).filter keepAlbumTitle).filter keepTrackTitle
        = (((df.filter keepArtist).filter keepLyrics).filter keepAlbumTitle).filter keepTrackTitle
      rw [filter_filter_comb (keepLyricsNonblank) (keepLyricsNotNan)]
      rfl
    rw [hcanon, filterSeq_eq_filter_all, filterSeq_eq_filter_all]
    have hfun : (fun r => ps.all (fun p => p r))
        = (fun r => [keepArtist, keepLyrics, keepAlbumTitle, keepTrackTitle].all
            (fun p => p r)) := funext (perm_all_eq hperm)
    rw [hfun]

/-- C7 witness: order independence discharged on a concrete two-row table with
the four predicates applied in reverse order. -/
theorem filter_data_monotone_order_independent_witness :
    List.Sublist (filter_data [⟨"Various Artists", "la", "T", "S"⟩, ⟨"Solo", "la", "T", "S"⟩])
      [⟨"Various Artists", "la", "T", "S"⟩, ⟨"Solo", "la", "T", "S"⟩]
    ∧ filterSeq [keepTrackTitle, keepAlbumTitle, keepLyrics, keepArtist]
        [⟨"Various Artists", "la", "T", "S"⟩, ⟨"Solo", "la", "T", "S"⟩]
      = filter_data [⟨"Various Artists", "la", "T", "S"⟩, ⟨"Solo", "la", "T", "S"⟩] :=
  ⟨(filter_data_monotone_order_independent _).1,
    (filter_data_monotone_order_independent _).2
      [keepTrackTitle, keepAlbumTitle, keepLyrics, keepArtist]
      (List.reverse_perm [keepArtist, keepLyrics, keepAlbumTitle, keepTrackTitle])⟩
